import Mathlib

/-!
Verification of the profile data store and preference-filtering subsystem
of the smoche application.

The TypeScript source is shallowly embedded:

* `Photo`, `ProfileInfo`, `Profile` mirror the interfaces of
  `src/stores/useProfileStore.tsx`.
* `ProfileStoreState` is the data part of the zustand profile store
  (`profiles`, `isLoading`, `error`); each store action becomes a pure
  function from state to state.  Zustand's `set` merges a partial state
  into the current one, which the record-update syntax `{ s with ... }`
  models directly.
* the deduplication in `fetchProfiles` is
  `Array.from(new Map(list.map(p => [p.id, p])).values())`; a JavaScript
  `Map` keeps keys in insertion order and `set` on an existing key
  overwrites the value in place, which `mapInsert`/`buildMap` model on an
  association list.
* the user-preference store (`likes`/`dislikes` arrays with
  `addLike`/`removeLike`/`addDislike`/`removeDislike`) mirrors the
  `useUserStore` source.
* the visible-profiles derivation mirrors `filteredProfiles` in
  `src/components/ProfileList.tsx`.
-/

/-- A photo object in a user's profile (`Photo` interface). -/
structure Photo where
  url : String
  width : Nat
  height : Nat
  deriving DecidableEq, Repr

/-- Detailed information about a user's profile (`ProfileInfo` interface). -/
structure ProfileInfo where
  age : Nat
  type : String
  gender : String
  sexuality : String
  name : String
  about : String
  desires : List String
  interests : List String
  deriving DecidableEq, Repr

/-- A complete user profile (`Profile` interface). -/
structure Profile where
  id : String
  info : ProfileInfo
  associated : Option String
  photos : List Photo
  deriving DecidableEq, Repr

/-- The data fields of the zustand profile store (`ProfileStoreState`):
`profiles`, `isLoading` and `error`. -/
structure ProfileStoreState where
  profiles : List Profile
  isLoading : Bool
  error : Option String
  deriving DecidableEq, Repr

/-- One step of `new Map(...)` construction: `Map.set(k, v)` on an
association list kept in key-insertion order.  If the key is present the
value is overwritten in place; otherwise the pair is appended. -/
def mapInsert (m : List (String × Profile)) (k : String) (v : Profile) :
    List (String × Profile) :=
  if m.any (fun e => e.1 == k) then
    m.map (fun e => if e.1 == k then (k, v) else e)
  else
    m ++ [(k, v)]

/-- The JavaScript `Map` built by
`new Map(list.map(profile => [profile.id, profile]))`. -/
def buildMap (l : List Profile) : List (String × Profile) :=
  l.foldl (fun m p => mapInsert m p.id p) []

/-- The deduplication performed by `fetchProfiles`:
`Array.from(new Map(list.map(p => [p.id, p])).values())`. -/
def dedupProfiles (l : List Profile) : List Profile :=
  (buildMap l).map Prod.snd

/-- Specification-side helper: the ids of a list in the order in which each
id is first seen. -/
def firstSeen (ids : List String) : List String :=
  ids.foldl (fun acc i => if i ∈ acc then acc else acc ++ [i]) []

/-- Specification-side helper: the last record in `l` whose id is `k`
(the "most recently seen" record with that id), if any. -/
def lastWith (l : List Profile) (k : String) : Option Profile :=
  l.reverse.find? (fun p => p.id == k)

/-- The carrier of the failure information that `fetchProfiles` inspects:
`error.response?.data?.message`.  `none` models an absent message anywhere
along the optional chain (transport error, missing `data`, missing
`message`); `some m` models a string message `m`. -/
structure FetchFailure where
  responseMessage : Option String
  deriving DecidableEq, Repr

/-- The fixed fallback error string of `fetchProfiles`. -/
def fallbackMessage : String := "Failed to fetch profiles"

/-- The message computed by
`error.response?.data?.message || "Failed to fetch profiles"`.
JavaScript `||` falls through on every falsy value, so an empty-string
message also yields the fallback. -/
def failureMessage (e : FetchFailure) : String :=
  match e.responseMessage with
  | some m => if m == "" then fallbackMessage else m
  | none => fallbackMessage

/-- The outcome of the awaited network request inside `fetchProfiles`. -/
def FetchOutcome := Except FetchFailure (List Profile)

/-- The `fetchProfiles` store action, as the state transformer obtained by
running it to completion on a given request outcome.  It first sets
`isLoading = true, error = null`; on success it stores the deduplicated
payload and clears `isLoading`; on failure it stores the extracted message
and clears `isLoading`, leaving `profiles` untouched. -/
def fetchProfilesRun (s : ProfileStoreState) (outcome : FetchOutcome) :
    ProfileStoreState :=
  let s1 : ProfileStoreState := { s with isLoading := true, error := none }
  match outcome with
  | Except.ok data =>
      { s1 with profiles := dedupProfiles data, isLoading := false }
  | Except.error e =>
      { s1 with error := some (failureMessage e), isLoading := false }

/-- The `setProfiles` store action:
`set(() => ({ profiles }))` — zustand merges the partial state, so only
the `profiles` field changes. -/
def setProfiles (s : ProfileStoreState) (profiles : List Profile) :
    ProfileStoreState :=
  { s with profiles := profiles }

/-- A `Partial<Profile>` value: each field is optionally present. -/
structure ProfilePatch where
  id : Option String
  info : Option ProfileInfo
  associated : Option (Option String)
  photos : Option (List Photo)
  deriving DecidableEq, Repr

/-- The object spread `{ ...profile, ...update }`: every field present in
the patch overwrites the corresponding field of the profile, including
`id` when the patch carries one. -/
def mergeProfile (p : Profile) (u : ProfilePatch) : Profile :=
  { id := u.id.getD p.id
    info := u.info.getD p.info
    associated := u.associated.getD p.associated
    photos := u.photos.getD p.photos }

/-- The `updateProfile` store action: maps over the list, replacing each
profile whose id matches by `{ ...profile, ...update }`. -/
def updateProfile (s : ProfileStoreState) (id : String) (u : ProfilePatch) :
    ProfileStoreState :=
  { s with
    profiles := s.profiles.map (fun profile =>
      if profile.id == id then mergeProfile profile u else profile) }

/-- The data fields of the zustand user store (`UserStoreState`): the
`user` record placeholder and the `likes`/`dislikes` id arrays. -/
structure UserStoreState where
  user : List (String × String)
  likes : List String
  dislikes : List String
  deriving DecidableEq, Repr

/-- The initial user store state: empty `likes` and `dislikes`. -/
def initialUserState : UserStoreState :=
  { user := [], likes := [], dislikes := [] }

/-- The `addLike` action: appends `id` to `likes` unless already present,
and unconditionally filters `id` out of `dislikes`. -/
def addLike (s : UserStoreState) (id : String) : UserStoreState :=
  { s with
    likes := if s.likes.contains id then s.likes else s.likes ++ [id]
    dislikes := s.dislikes.filter (fun dislikeId => dislikeId != id) }

/-- The `removeLike` action: filters `id` out of `likes`; `dislikes` is not
part of the partial state, so zustand leaves it unchanged. -/
def removeLike (s : UserStoreState) (id : String) : UserStoreState :=
  { s with likes := s.likes.filter (fun likeId => likeId != id) }

/-- The `addDislike` action: appends `id` to `dislikes` unless already
present, and unconditionally filters `id` out of `likes`. -/
def addDislike (s : UserStoreState) (id : String) : UserStoreState :=
  { s with
    dislikes := if s.dislikes.contains id then s.dislikes
      else s.dislikes ++ [id]
    likes := s.likes.filter (fun likeId => likeId != id) }

/-- The `removeDislike` action: filters `id` out of `dislikes`. -/
def removeDislike (s : UserStoreState) (id : String) : UserStoreState :=
  { s with dislikes := s.dislikes.filter (fun dislikeId => dislikeId != id) }

/-- One preference-store operation, for reasoning about arbitrary call
sequences. -/
inductive PrefOp where
  | addLike (id : String)
  | removeLike (id : String)
  | addDislike (id : String)
  | removeDislike (id : String)
  deriving DecidableEq, Repr

/-- Apply one preference operation to a state. -/
def applyPrefOp (s : UserStoreState) : PrefOp → UserStoreState
  | PrefOp.addLike id => addLike s id
  | PrefOp.removeLike id => removeLike s id
  | PrefOp.addDislike id => addDislike s id
  | PrefOp.removeDislike id => removeDislike s id

/-- Apply a sequence of preference operations in call order. -/
def applyPrefOps (s : UserStoreState) (ops : List PrefOp) : UserStoreState :=
  ops.foldl applyPrefOp s

/-- Decidable disjointness check between `likes` and `dislikes`. -/
def disjointLD (s : UserStoreState) : Bool :=
  s.likes.all (fun id => !s.dislikes.contains id)

/-- The `filteredProfiles` derivation of `ProfileList`:
`profiles.length ? profiles.filter(p => !likes.includes(p.id) && !dislikes.includes(p.id)) : profiles`. -/
def filteredProfiles (profiles : List Profile) (likes dislikes : List String) :
    List Profile :=
  if profiles.length != 0 then
    profiles.filter (fun profile =>
      !likes.contains profile.id && !dislikes.contains profile.id)
  else
    profiles

/-- Specification-side view (from the spec's words): the sub-sequence of
`P` whose id is in neither `L` nor `D`, in `P`'s original order. -/
def visibleProfilesView (P : List Profile) (L D : List String) :
    List Profile :=
  P.filter (fun p => decide (p.id ∉ L ∧ p.id ∉ D))

/-- Concrete sample profile used by witnesses: id `i`, display name `n`. -/
def sampleProfile (i n : String) : Profile :=
  { id := i
    info :=
      { age := 20, type := "single", gender := "male"
        sexuality := "straight", name := n, about := ""
        desires := [], interests := [] }
    associated := none
    photos := [] }

/-- The spec's dedup example input:
`[{id:"A",name:"X"},{id:"B",name:"Y"},{id:"A",name:"Z"}]`. -/
def dedupExampleInput : List Profile :=
  [sampleProfile "A" "X", sampleProfile "B" "Y", sampleProfile "A" "Z"]

example :
    dedupProfiles dedupExampleInput =
      [sampleProfile "A" "Z", sampleProfile "B" "Y"] := by decide

example :
    lastWith dedupExampleInput "A" = some (sampleProfile "A" "Z") := by decide

example :
    firstSeen (dedupExampleInput.map Profile.id) = ["A", "B"] := by decide

example :
    filteredProfiles
      [sampleProfile "A" "X", sampleProfile "B" "Y", sampleProfile "C" "W"]
      ["B"] [] =
      [sampleProfile "A" "X", sampleProfile "C" "W"] := by decide

example :
    (applyPrefOps initialUserState
      [PrefOp.addLike "A", PrefOp.addDislike "A"]).likes = [] ∧
    (applyPrefOps initialUserState
      [PrefOp.addLike "A", PrefOp.addDislike "A"]).dislikes = ["A"] := by
  constructor <;> rfl

/-! ### Lemmas about the JavaScript-Map deduplication -/

theorem mapInsert_keys (m : List (String × Profile)) (k : String)
    (v : Profile) :
    (mapInsert m k v).map Prod.fst =
      if k ∈ m.map Prod.fst then m.map Prod.fst
      else m.map Prod.fst ++ [k] := by
  unfold mapInsert
  by_cases h : k ∈ m.map Prod.fst
  · have hany : m.any (fun e => e.1 == k) = true := by
      rcases List.mem_map.mp h with ⟨e, he, hk⟩
      exact List.any_eq_true.mpr ⟨e, he, by simp [hk]⟩
    rw [if_pos hany, if_pos h, List.map_map]
    refine List.map_congr_left (fun e _ => ?_)
    by_cases hek : e.1 = k
    · simp [hek]
    · simp [hek]
  · have hany : m.any (fun e => e.1 == k) = false := by
      rw [Bool.eq_false_iff]
      intro hc
      rcases List.any_eq_true.mp hc with ⟨e, he, hk⟩
      exact h (List.mem_map.mpr ⟨e, he, by simpa using hk⟩)
    rw [if_neg (by simp [hany]), if_neg h, List.map_append]
    rfl

theorem mapInsert_mem (m : List (String × Profile)) (k : String)
    (v : Profile) (e : String × Profile) (he : e ∈ mapInsert m k v) :
    e = (k, v) ∨ (e ∈ m ∧ e.1 ≠ k) := by
  unfold mapInsert at he
  by_cases hany : m.any (fun x => x.1 == k) = true
  · rw [if_pos hany] at he
    rcases List.mem_map.mp he with ⟨a, ha, hae⟩
    by_cases hak : a.1 = k
    · left
      rw [if_pos (by simpa using hak)] at hae
      exact hae.symm
    · right
      rw [if_neg (by simpa using hak)] at hae
      exact ⟨hae ▸ ha, hae ▸ hak⟩
  · rw [if_neg hany] at he
    rcases List.mem_append.mp he with hm | hs
    · right
      refine ⟨hm, fun hek => ?_⟩
      exact hany (List.any_eq_true.mpr ⟨e, hm, by simpa using hek⟩)
    · left
      simpa using hs

theorem lastWith_cons_of_some (p : Profile) (l : List Profile) (k : String)
    (v : Profile) (h : lastWith l k = some v) :
    lastWith (p :: l) k = some v := by
  unfold lastWith at h ⊢
  rw [List.reverse_cons, List.find?_append, h, Option.or_some]

theorem lastWith_cons_of_none_eq (p : Profile) (l : List Profile)
    (h : lastWith l p.id = none) :
    lastWith (p :: l) p.id = some p := by
  unfold lastWith at h ⊢
  rw [List.reverse_cons, List.find?_append, h, Option.none_or]
  simp

theorem lastWith_cons_of_none_ne (p : Profile) (l : List Profile)
    (k : String) (hk : p.id ≠ k) (h : lastWith l k = none) :
    lastWith (p :: l) k = none := by
  unfold lastWith at h ⊢
  rw [List.reverse_cons, List.find?_append, h, Option.none_or]
  simp [hk]

theorem buildMapAux_mem (l : List Profile) :
    ∀ (m : List (String × Profile)) (e : String × Profile),
      e ∈ l.foldl (fun m p => mapInsert m p.id p) m →
      (e.1 = e.2.id ∧ lastWith l e.1 = some e.2) ∨
      (lastWith l e.1 = none ∧ e ∈ m) := by
  induction l with
  | nil =>
    intro m e he
    exact Or.inr ⟨rfl, he⟩
  | cons p l ih =>
    intro m e he
    rw [List.foldl_cons] at he
    rcases ih (mapInsert m p.id p) e he with ⟨hid, hlast⟩ | ⟨hnone, hmem⟩
    · exact Or.inl ⟨hid, lastWith_cons_of_some p l e.1 e.2 hlast⟩
    · rcases mapInsert_mem m p.id p e hmem with hep | ⟨hem, hne⟩
      · left
        subst hep
        exact ⟨rfl, lastWith_cons_of_none_eq p l hnone⟩
      · right
        exact ⟨lastWith_cons_of_none_ne p l e.1 (fun hc => hne hc.symm) hnone,
          hem⟩

theorem buildMapAux_keys (l : List Profile) :
    ∀ m : List (String × Profile),
      (l.foldl (fun m p => mapInsert m p.id p) m).map Prod.fst =
        (l.map Profile.id).foldl
          (fun acc i => if i ∈ acc then acc else acc ++ [i])
          (m.map Prod.fst) := by
  induction l with
  | nil => intro m; rfl
  | cons p l ih =>
    intro m
    rw [List.foldl_cons, ih (mapInsert m p.id p), mapInsert_keys,
      List.map_cons, List.foldl_cons]

theorem dedupProfiles_ids (l : List Profile) :
    (dedupProfiles l).map Profile.id = firstSeen (l.map Profile.id) := by
  unfold dedupProfiles firstSeen
  rw [List.map_map]
  have hpt : ∀ e ∈ buildMap l, (Profile.id ∘ Prod.snd) e = Prod.fst e := by
    intro e he
    rcases buildMapAux_mem l [] e he with ⟨hid, _⟩ | ⟨_, hmem⟩
    · exact hid.symm
    · cases hmem
  rw [List.map_congr_left hpt]
  have := buildMapAux_keys l []
  simpa using this

theorem dedupProfiles_lastWith (l : List Profile) :
    ∀ p ∈ dedupProfiles l, lastWith l p.id = some p := by
  intro p hp
  rcases List.mem_map.mp hp with ⟨e, he, hep⟩
  rcases buildMapAux_mem l [] e he with ⟨hid, hlast⟩ | ⟨_, hmem⟩
  · rw [← hep, ← hid]
    exact hlast
  · cases hmem

theorem firstSeenAux_nodup (ids : List String) :
    ∀ acc : List String, acc.Nodup →
      (ids.foldl (fun acc i => if i ∈ acc then acc else acc ++ [i])
        acc).Nodup := by
  induction ids with
  | nil => intro acc h; exact h
  | cons i ids ih =>
    intro acc hacc
    rw [List.foldl_cons]
    by_cases hmem : i ∈ acc
    · rw [if_pos hmem]; exact ih acc hacc
    · rw [if_neg hmem]
      refine ih (acc ++ [i]) ?_
      rw [List.nodup_append]
      refine ⟨hacc, List.nodup_singleton i, fun a ha hb => ?_⟩
      rw [List.mem_singleton] at hb
      exact hmem (hb ▸ ha)

theorem firstSeen_nodup (ids : List String) : (firstSeen ids).Nodup :=
  firstSeenAux_nodup ids [] List.nodup_nil

theorem firstSeenAux_mem (ids : List String) :
    ∀ (acc : List String) (x : String),
      x ∈ ids.foldl (fun acc i => if i ∈ acc then acc else acc ++ [i]) acc ↔
        x ∈ acc ∨ x ∈ ids := by
  induction ids with
  | nil => intro acc x; simp
  | cons i ids ih =>
    intro acc x
    rw [List.foldl_cons]
    by_cases hmem : i ∈ acc
    · rw [if_pos hmem, ih acc x]
      constructor
      · rintro (h | h)
        · exact Or.inl h
        · exact Or.inr (List.mem_cons_of_mem i h)
      · rintro (h | h)
        · exact Or.inl h
        · rcases List.mem_cons.mp h with rfl | h
          · exact Or.inl hmem
          · exact Or.inr h
    · rw [if_neg hmem, ih (acc ++ [i]) x]
      constructor
      · rintro (h | h)
        · rcases List.mem_append.mp h with h | h
          · exact Or.inl h
          · exact Or.inr (by simpa using Or.inl (by simpa using h))
        · exact Or.inr (List.mem_cons_of_mem i h)
      · rintro (h | h)
        · exact Or.inl (List.mem_append.mpr (Or.inl h))
        · rcases List.mem_cons.mp h with rfl | h
          · exact Or.inl (List.mem_append.mpr (Or.inr (by simp)))
          · exact Or.inr h

theorem firstSeen_mem (ids : List String) (x : String) :
    x ∈ firstSeen ids ↔ x ∈ ids := by
  unfold firstSeen
  rw [firstSeenAux_mem ids [] x]
  simp

theorem dedupProfiles_ids_nodup (l : List Profile) :
    ((dedupProfiles l).map Profile.id).Nodup := by
  rw [dedupProfiles_ids]
  exact firstSeen_nodup (l.map Profile.id)

theorem buildMapAux_of_nodup (l : List Profile) :
    ∀ m : List (String × Profile),
      (∀ p ∈ l, p.id ∉ m.map Prod.fst) → (l.map Profile.id).Nodup →
      l.foldl (fun m p => mapInsert m p.id p) m =
        m ++ l.map (fun p => (p.id, p)) := by
  induction l with
  | nil => intro m _ _; simp
  | cons p l ih =>
    intro m hfresh hnodup
    rw [List.map_cons, List.nodup_cons] at hnodup
    have hpm : p.id ∉ m.map Prod.fst := hfresh p (List.mem_cons_self p l)
    have hany : m.any (fun e => e.1 == p.id) = false := by
      rw [Bool.eq_false_iff]
      intro hc
      rcases List.any_eq_true.mp hc with ⟨e, he, hk⟩
      exact hpm (List.mem_map.mpr ⟨e, he, by simpa using hk⟩)
    have hstep : mapInsert m p.id p = m ++ [(p.id, p)] := by
      unfold mapInsert
      rw [if_neg (by simp [hany])]
    rw [List.foldl_cons, hstep,
      ih (m ++ [(p.id, p)]) ?_ hnodup.2]
    · rw [List.map_cons, List.append_assoc, List.singleton_append]
    · intro q hq
      rw [List.map_append, List.mem_append]
      rintro (hk | hk)
      · exact hfresh q (List.mem_cons_of_mem p hq) hk
      · simp only [List.map_cons, List.map_nil, List.mem_singleton] at hk
        exact hnodup.1 (hk ▸ List.mem_map.mpr ⟨q, hq, rfl⟩)

theorem dedupProfiles_of_nodup (l : List Profile)
    (h : (l.map Profile.id).Nodup) : dedupProfiles l = l := by
  unfold dedupProfiles buildMap
  rw [buildMapAux_of_nodup l [] (by simp) h]
  simp only [List.nil_append, List.map_map]
  have : List.map (Prod.snd ∘ fun p : Profile => (p.id, p)) l =
      List.map id l :=
    List.map_congr_left (fun p _ => rfl)
  rw [this, List.map_id]

/-- C1: the deduplication performed by `fetchProfiles` outputs the ids in
first-seen order (hence one record per id, covering exactly the input's
ids), and every output record is the last-seen input record with its id. -/
theorem fetchProfiles_dedup_correct (l : List Profile) :
    (dedupProfiles l).map Profile.id = firstSeen (l.map Profile.id) ∧
    ((dedupProfiles l).map Profile.id).Nodup ∧
    (∀ i : String,
      i ∈ (dedupProfiles l).map Profile.id ↔ i ∈ l.map Profile.id) ∧
    ∀ p : Profile, p ∈ dedupProfiles l → lastWith l p.id = some p := by
  refine ⟨dedupProfiles_ids l, dedupProfiles_ids_nodup l, ?_,
    dedupProfiles_lastWith l⟩
  intro i
  rw [dedupProfiles_ids]
  exact firstSeen_mem (l.map Profile.id) i

/-- Witness for C1 at the spec's own example input. -/
theorem fetchProfiles_dedup_correct_witness :
    (sampleProfile "A" "Z") ∈ dedupProfiles dedupExampleInput ∧
    lastWith dedupExampleInput (sampleProfile "A" "Z").id =
      some (sampleProfile "A" "Z") :=
  ⟨by decide,
    (fetchProfiles_dedup_correct dedupExampleInput).2.2.2
      (sampleProfile "A" "Z") (by decide)⟩

/-- C7: the deduplication function is idempotent. -/
theorem dedupProfiles_idempotent (l : List Profile) :
    dedupProfiles (dedupProfiles l) = dedupProfiles l :=
  dedupProfiles_of_nodup (dedupProfiles l) (dedupProfiles_ids_nodup l)

/-! ### Lemmas about the user-preference store -/

theorem applyPrefOp_disjoint (s : UserStoreState) (op : PrefOp)
    (h : ∀ i, i ∈ s.likes → i ∉ s.dislikes) :
    ∀ i, i ∈ (applyPrefOp s op).likes → i ∉ (applyPrefOp s op).dislikes := by
  cases op with
  | addLike id =>
    intro i hi hd
    simp only [applyPrefOp, addLike, List.mem_filter, bne_iff_ne] at hi hd
    by_cases hc : s.likes.contains id = true
    · rw [if_pos hc] at hi
      exact h i hi hd.1
    · rw [if_neg hc, List.mem_append] at hi
      rcases hi with hi | hi
      · exact h i hi hd.1
      · rw [List.mem_singleton] at hi
        exact hd.2 hi
  | removeLike id =>
    intro i hi hd
    simp only [applyPrefOp, removeLike, List.mem_filter] at hi hd
    exact h i hi.1 hd
  | addDislike id =>
    intro i hi hd
    simp only [applyPrefOp, addDislike, List.mem_filter, bne_iff_ne] at hi hd
    by_cases hc : s.dislikes.contains id = true
    · rw [if_pos hc] at hd
      exact h i hi.1 hd
    · rw [if_neg hc, List.mem_append] at hd
      rcases hd with hd | hd
      · exact h i hi.1 hd
      · rw [List.mem_singleton] at hd
        exact hi.2 hd
  | removeDislike id =>
    intro i hi hd
    simp only [applyPrefOp, removeDislike, List.mem_filter] at hi hd
    exact h i hi hd.1

theorem applyPrefOps_disjoint (ops : List PrefOp) :
    ∀ s : UserStoreState, (∀ i, i ∈ s.likes → i ∉ s.dislikes) →
      ∀ i, i ∈ (applyPrefOps s ops).likes →
        i ∉ (applyPrefOps s ops).dislikes := by
  induction ops with
  | nil => intro s h; exact h
  | cons op ops ih =>
    intro s h
    exact ih (applyPrefOp s op) (applyPrefOp_disjoint s op h)

/-- C2: after every sequence of preference operations run from the initial
empty state, the liked and disliked id sets are disjoint. -/
theorem userStore_liked_disliked_disjoint (ops : List PrefOp) :
    disjointLD (applyPrefOps initialUserState ops) = true := by
  have h := applyPrefOps_disjoint ops initialUserState
    (by intro i hi; cases hi)
  unfold disjointLD
  rw [List.all_eq_true]
  intro x hx
  have hnd := h x hx
  simpa using hnd

/-- C8: `addLike` is idempotent: a second consecutive call with the same id
leaves the whole preference state unchanged. -/
theorem addLike_idempotent (s : UserStoreState) (id : String) :
    addLike (addLike s id) id = addLike s id := by
  have hid : (addLike s id).likes.contains id = true := by
    rw [List.elem_iff]
    unfold addLike
    by_cases hc : s.likes.contains id = true
    · simp only [if_pos hc]
      exact List.elem_iff.mp hc
    · simp only [if_neg hc]
      exact List.mem_append.mpr (Or.inr (List.mem_singleton.mpr rfl))
  have hfd : (addLike s id).dislikes.filter (fun d => d != id) =
      (addLike s id).dislikes := by
    rw [List.filter_eq_self]
    intro a ha
    unfold addLike at ha
    simp only [List.mem_filter] at ha
    exact ha.2
  show UserStoreState.mk (addLike s id).user
      (if (addLike s id).likes.contains id then (addLike s id).likes
        else (addLike s id).likes ++ [id])
      ((addLike s id).dislikes.filter (fun d => d != id)) = addLike s id
  rw [hid, hfd, if_pos rfl]

/-- C3: the `filteredProfiles` derivation returns exactly the elements of
the profile list whose id is in neither preference set, in the original
relative order (as captured by the specification-side filter). -/
theorem visibleProfiles_correct (P : List Profile) (L D : List String) :
    filteredProfiles P L D = visibleProfilesView P L D := by
  unfold filteredProfiles visibleProfilesView
  cases P with
  | nil => simp
  | cons p P =>
    rw [if_pos (by simp)]
    refine List.filter_congr (fun a _ => ?_)
    by_cases hL : a.id ∈ L <;> by_cases hD : a.id ∈ D <;>
      simp [hL, hD, List.elem_iff]

/-- Witness for C2 at a concrete operation sequence. -/
theorem userStore_disjoint_witness :
    disjointLD (applyPrefOps initialUserState
      [PrefOp.addLike "A", PrefOp.addDislike "A", PrefOp.addLike "B"]) =
      true :=
  userStore_liked_disliked_disjoint
    [PrefOp.addLike "A", PrefOp.addDislike "A", PrefOp.addLike "B"]

/-! ### Lemmas about the profile store actions -/

/-- Counterexample to C4 as stated: a present-but-empty
`response.data.message` is falsy in JavaScript, so `||` replaces it by the
fixed fallback string instead of storing the empty message. -/
theorem fetchProfiles_empty_message_cex :
    (fetchProfilesRun (ProfileStoreState.mk [sampleProfile "A" "X"] false
        none)
      (Except.error (FetchFailure.mk (some "")))).error ≠ some "" := by
  decide

/-- C4 (amended): a failing `fetchProfiles` leaves `profiles` unchanged,
clears `isLoading`, and sets `error` to a non-null message — the value of
`response.data.message` when present and non-empty, else the fixed
fallback string (also when the message is present but empty, since `||`
treats the empty string as falsy). -/
theorem fetchProfiles_failure_behavior (s : ProfileStoreState)
    (e : FetchFailure) :
    (fetchProfilesRun s (Except.error e)).profiles = s.profiles ∧
    (fetchProfilesRun s (Except.error e)).isLoading = false ∧
    (fetchProfilesRun s (Except.error e)).error ≠ none ∧
    (∀ m : String, e.responseMessage = some m → m ≠ "" →
      (fetchProfilesRun s (Except.error e)).error = some m) ∧
    ((e.responseMessage = none ∨ e.responseMessage = some "") →
      (fetchProfilesRun s (Except.error e)).error = some fallbackMessage) :=
  by
  refine ⟨rfl, rfl, by simp [fetchProfilesRun], ?_, ?_⟩
  · intro m hm hne
    show some (failureMessage e) = some m
    unfold failureMessage
    rw [hm]
    simp [hne]
  · intro hcase
    show some (failureMessage e) = some fallbackMessage
    unfold failureMessage
    rcases hcase with hm | hm
    · rw [hm]
    · rw [hm]; simp

/-- Witness for C4 at a concrete state and failure. -/
theorem fetchProfiles_failure_witness :
    (fetchProfilesRun (ProfileStoreState.mk [sampleProfile "A" "X"] false
        none)
      (Except.error (FetchFailure.mk (some "boom")))).profiles =
      [sampleProfile "A" "X"] ∧
    (fetchProfilesRun (ProfileStoreState.mk [sampleProfile "A" "X"] false
        none)
      (Except.error (FetchFailure.mk (some "boom")))).error =
      some "boom" :=
  ⟨(fetchProfiles_failure_behavior
      (ProfileStoreState.mk [sampleProfile "A" "X"] false none)
      (FetchFailure.mk (some "boom"))).1,
    (fetchProfiles_failure_behavior
      (ProfileStoreState.mk [sampleProfile "A" "X"] false none)
      (FetchFailure.mk (some "boom"))).2.2.2.1 "boom" rfl (by decide)⟩

/-- Counterexample to C5 as stated: the spread `{ ...profile, ...update }`
lets a patch that carries an `id` field overwrite the targeted profile's
id ("A" becomes "B"). -/
theorem updateProfile_id_overwritten_cex :
    ¬ ((updateProfile
          (ProfileStoreState.mk [sampleProfile "A" "X"] false none) "A"
          (ProfilePatch.mk (some "B") none none none)).profiles.map
        Profile.id =
      (ProfileStoreState.mk [sampleProfile "A" "X"] false
          none).profiles.map Profile.id) := by
  decide

/-- C5 (amended): for every patch that does not carry an `id` field,
`updateProfile` preserves every profile's `id`, in particular the targeted
one's. -/
theorem updateProfile_preserves_ids (s : ProfileStoreState) (id : String)
    (u : ProfilePatch) (h : u.id = none) :
    (updateProfile s id u).profiles.map Profile.id =
      s.profiles.map Profile.id := by
  unfold updateProfile
  rw [List.map_map]
  refine List.map_congr_left (fun p _ => ?_)
  by_cases hc : p.id = id
  · simp [hc, mergeProfile, h]
  · simp [hc]

/-- Witness for C5 (amended) at a concrete state and id-free patch. -/
theorem updateProfile_preserves_ids_witness :
    (updateProfile (ProfileStoreState.mk [sampleProfile "A" "X"] false none)
        "A" (ProfilePatch.mk none none none (some []))).profiles.map
        Profile.id =
      (ProfileStoreState.mk [sampleProfile "A" "X"] false
          none).profiles.map Profile.id :=
  updateProfile_preserves_ids
    (ProfileStoreState.mk [sampleProfile "A" "X"] false none) "A"
    (ProfilePatch.mk none none none (some [])) rfl

/-- C6: `updateProfile` is frame-preserving: position by position, a
profile whose id differs from the targeted one is returned unchanged, and
a matching profile becomes exactly the spread-merge of itself with the
patch. -/
theorem updateProfile_frame (s : ProfileStoreState) (id : String)
    (u : ProfilePatch) :
    List.Forall₂
      (fun p q => (p.id ≠ id → q = p) ∧ (p.id = id → q = mergeProfile p u))
      s.profiles (updateProfile s id u).profiles := by
  show List.Forall₂ _ s.profiles (s.profiles.map (fun profile =>
    if profile.id == id then mergeProfile profile u else profile))
  induction s.profiles with
  | nil => exact List.Forall₂.nil
  | cons p l ih =>
    refine List.Forall₂.cons ⟨fun hne => ?_, fun heq => ?_⟩ ih
    · show (if (p.id == id) = true then mergeProfile p u else p) = p
      rw [if_neg (by simpa using hne)]
    · show (if (p.id == id) = true then mergeProfile p u else p) =
        mergeProfile p u
      rw [if_pos (by simpa using heq)]

/-- Witness for C6 at a concrete two-profile store. -/
theorem updateProfile_frame_witness :
    List.Forall₂
      (fun p q => (p.id ≠ "A" → q = p) ∧
        (p.id = "A" →
          q = mergeProfile p (ProfilePatch.mk none none none (some []))))
      [sampleProfile "A" "X", sampleProfile "B" "Y"]
      (updateProfile
        (ProfileStoreState.mk [sampleProfile "A" "X", sampleProfile "B" "Y"]
          false none)
        "A" (ProfilePatch.mk none none none (some []))).profiles :=
  updateProfile_frame
    (ProfileStoreState.mk [sampleProfile "A" "X", sampleProfile "B" "Y"]
      false none)
    "A" (ProfilePatch.mk none none none (some []))

/-- C9: `updateProfile` with an id matching no profile leaves the whole
store state unchanged (in particular the `error` field: nothing is
surfaced). -/
theorem updateProfile_not_found (s : ProfileStoreState) (id : String)
    (u : ProfilePatch)
    (h : s.profiles.all (fun p => p.id != id) = true) :
    updateProfile s id u = s := by
  have hall := List.all_eq_true.mp h
  rcases s with ⟨profiles, isLoading, error⟩
  have hmap : profiles.map (fun p =>
      if p.id == id then mergeProfile p u else p) = profiles := by
    have h1 : profiles.map (fun p =>
        if p.id == id then mergeProfile p u else p) =
        profiles.map (fun p => p) :=
      List.map_congr_left (fun p hp => by
        have hne := hall p hp
        show (if (p.id == id) = true then mergeProfile p u else p) = p
        rw [if_neg (fun hc => bne_iff_ne.mp hne (by simpa using hc))])
    rw [h1, List.map_id']
  show ProfileStoreState.mk
    (profiles.map (fun p => if p.id == id then mergeProfile p u else p))
    isLoading error = ProfileStoreState.mk profiles isLoading error
  rw [hmap]

/-- Witness for C9 at a concrete state whose list lacks the id. -/
theorem updateProfile_not_found_witness :
    updateProfile (ProfileStoreState.mk [sampleProfile "A" "X"] false none)
        "B" (ProfilePatch.mk none none none none) =
      ProfileStoreState.mk [sampleProfile "A" "X"] false none :=
  updateProfile_not_found
    (ProfileStoreState.mk [sampleProfile "A" "X"] false none) "B"
    (ProfilePatch.mk none none none none) (by decide)

/-- C10: `setProfiles` replaces exactly the `profiles` field; `isLoading`
and `error` are unchanged. -/
theorem setProfiles_frame (s : ProfileStoreState) (l : List Profile) :
    (setProfiles s l).isLoading = s.isLoading ∧
    (setProfiles s l).error = s.error ∧
    (setProfiles s l).profiles = l :=
  ⟨rfl, rfl, rfl⟩
